import Mathlib

/-!
Verification of the seastar experimental websocket server
(`src/websocket/server.cc`) against its natural-language specification.

The development shallowly embeds the server's pure logic and per-connection
state machine:

* the outbound frame header codec (`send_data`, lines 262-286);
* the handshake validation logic (`read_http_upgrade_request`, lines 136-181),
  with the HTTP request parser collaborator abstracted to its three outcomes
  (eof / failed / parsed request);
* the ingestion step (`read_one`, lines 194-226), close procedure (`close`,
  lines 247-260) and the two `do_until` loops, as explicit state transformers
  on a connection-state record;
* the SHA1 + base64 accept-key pipeline (`sha1_base64`, lines 115-134; the
  hash and base64 primitives live in gnutls, outside this repository, and are
  modelled from the spec / their standards);
* the server lifecycle (`listen`, `stop`, lines 45-99), with the seastar
  `gate` collaborator modelled from the spec.

Machine integers are modelled as `Nat` with explicit `% 2^w` where the C++
code truncates; byte strings are `List Nat` (each element < 256 by
construction at the writing sites).
-/

namespace Websocket

/-! ## Frame header codec (`server_connection::send_data`) -/

/-- Modelled from the spec: the `opcodes` enumeration lives in
`include/seastar/websocket/server.hh` (not part of the excerpted source);
the spec fixes the wire values CONTINUATION=0, TEXT=1, BINARY=2, CLOSE=8,
PING=9, PONG=10. -/
inductive Opcode where
  | CONTINUATION
  | TEXT
  | BINARY
  | CLOSE
  | PING
  | PONG
  deriving DecidableEq, Repr

def Opcode.toNat : Opcode → Nat
  | .CONTINUATION => 0
  | .TEXT => 1
  | .BINARY => 2
  | .CLOSE => 8
  | .PING => 9
  | .PONG => 10

/-- `write_be<uint16_t>(header + 2, buff.size())`: the `size_t` length is
truncated to 16 bits and written big-endian (2 bytes). -/
def writeBe16 (v : Nat) : List Nat :=
  let v := v % 2 ^ 16
  [v / 2 ^ 8 % 256, v % 256]

/-- `write_be<uint64_t>(header + 2, buff.size())`: the `size_t` length is
written big-endian (8 bytes). -/
def writeBe64 (v : Nat) : List Nat :=
  let v := v % 2 ^ 64
  [v / 2 ^ 56 % 256, v / 2 ^ 48 % 256, v / 2 ^ 40 % 256, v / 2 ^ 32 % 256,
   v / 2 ^ 24 % 256, v / 2 ^ 16 % 256, v / 2 ^ 8 % 256, v % 256]

/-- The header bytes built by `server_connection::send_data` (lines 262-278):
`header[0] = '\x80' + opcode`; then the three-tier length encoding exactly as
in the source (`126 <= size <= 65535` ⇒ byte 1 = 0x7E plus 16-bit big-endian;
`65535 < size` ⇒ byte 1 = 0x7F plus 64-bit big-endian; otherwise the length
itself, truncated to `uint8`, in byte 1). -/
def sendDataHeader (opcode : Opcode) (len : Nat) : List Nat :=
  let b0 := (0x80 + opcode.toNat) % 256
  if 126 ≤ len ∧ len ≤ 65535 then
    b0 :: 0x7E :: writeBe16 len
  else if 65535 < len then
    b0 :: 0x7F :: writeBe64 len
  else
    [b0, len % 256]

/-- Reference header decoder, written from the spec's description of the wire
format: byte 0 carries FIN and the 4-bit opcode, byte 1 carries the mask bit
and the 7-bit length tag, with 126/127 announcing a 16-bit or 64-bit
big-endian extended length. Rejects masked frames and length fields of the wrong size. -/
def decodeFrameHeader (h : List Nat) : Option (Nat × Nat) :=
  match h with
  | b0 :: b1 :: rest =>
    let op := b0 % 16
    if 128 ≤ b1 then none
    else if b1 ≤ 125 then
      match rest with
      | [] => some (op, b1)
      | _ => none
    else if b1 = 126 then
      match rest with
      | [x, y] => some (op, x * 2 ^ 8 + y)
      | _ => none
    else
      match rest with
      | [x0, x1, x2, x3, x4, x5, x6, x7] =>
        some (op, x0 * 2 ^ 56 + x1 * 2 ^ 48 + x2 * 2 ^ 40 + x3 * 2 ^ 32 +
                  x4 * 2 ^ 24 + x5 * 2 ^ 16 + x6 * 2 ^ 8 + x7)
      | _ => none
  | _ => none

lemma opcode_toNat_lt (op : Opcode) : op.toNat < 16 := by
  cases op <;> simp [Opcode.toNat]

lemma sendDataHeader_byte0 (op : Opcode) (len : Nat) :
    ∃ t, sendDataHeader op len = (0x80 + op.toNat) % 256 :: t := by
  unfold sendDataHeader
  split
  · exact ⟨_, rfl⟩
  split
  · exact ⟨_, rfl⟩
  · exact ⟨_, rfl⟩

lemma byte0_eq_or (op : Opcode) :
    (0x80 + op.toNat) % 256 = 0x80 ||| op.toNat := by
  cases op <;> decide

lemma decode_short (t L : Nat) (ht : t < 16) (hL : L ≤ 125) :
    decodeFrameHeader [(0x80 + t) % 256, L % 256] = some (t, L) := by
  have h1 : (0x80 + t) % 256 = 0x80 + t := Nat.mod_eq_of_lt (by omega)
  have h2 : L % 256 = L := Nat.mod_eq_of_lt (by omega)
  simp only [decodeFrameHeader, h1, h2]
  rw [if_neg (by omega), if_pos (by omega)]
  have h3 : (0x80 + t) % 16 = t := by omega
  simp [h3]

lemma decode_mid (t L : Nat) (ht : t < 16) (hlo : 126 ≤ L) (hhi : L ≤ 65535) :
    decodeFrameHeader ((0x80 + t) % 256 :: 0x7E :: writeBe16 L) = some (t, L) := by
  have h1 : (0x80 + t) % 256 = 0x80 + t := Nat.mod_eq_of_lt (by omega)
  simp only [decodeFrameHeader, writeBe16, h1]
  rw [if_neg (by omega), if_neg (by omega)]
  simp only [if_true, Option.some.injEq, Prod.mk.injEq]
  omega

lemma decode_long (t L : Nat) (ht : t < 16) (hlo : 65535 < L) (hhi : L < 2 ^ 64) :
    decodeFrameHeader ((0x80 + t) % 256 :: 0x7F :: writeBe64 L) = some (t, L) := by
  have h1 : (0x80 + t) % 256 = 0x80 + t := Nat.mod_eq_of_lt (by omega)
  simp only [decodeFrameHeader, writeBe64, h1]
  rw [if_neg (by omega), if_neg (by omega), if_neg (by omega)]
  simp only [Option.some.injEq, Prod.mk.injEq]
  omega

/-- C1: for every opcode and payload length `L < 2^64` (lengths are `size_t`),
the header produced by `send_data` has byte 0 = `0x80 ||| opcode` (FIN set),
a clear mask bit in byte 1, the three-tier length field of the spec
(2-byte header with `L` inline when `L ≤ 125`; 4-byte header with byte 1 = 126
and `L` 16-bit big-endian when `126 ≤ L ≤ 65535`; 10-byte header with
byte 1 = 127 and `L` 64-bit big-endian when `L > 65535`), and a reference
decoder recovers the opcode value and `L` exactly. -/
theorem send_data_header_correct (op : Opcode) (L : Nat) (hL : L < 2 ^ 64) :
    (sendDataHeader op L).head? = some (0x80 ||| op.toNat) ∧
    (sendDataHeader op L).getD 1 0 < 128 ∧
    (sendDataHeader op L).length =
      (if L ≤ 125 then 2 else if L ≤ 65535 then 4 else 10) ∧
    (L ≤ 125 → sendDataHeader op L = [0x80 ||| op.toNat, L]) ∧
    (126 ≤ L → L ≤ 65535 →
      sendDataHeader op L =
        [0x80 ||| op.toNat, 126, L / 2 ^ 8 % 256, L % 256]) ∧
    (65535 < L →
      sendDataHeader op L =
        [0x80 ||| op.toNat, 127, L / 2 ^ 56 % 256, L / 2 ^ 48 % 256,
         L / 2 ^ 40 % 256, L / 2 ^ 32 % 256, L / 2 ^ 24 % 256,
         L / 2 ^ 16 % 256, L / 2 ^ 8 % 256, L % 256]) ∧
    decodeFrameHeader (sendDataHeader op L) = some (op.toNat, L) := by
  have ht := opcode_toNat_lt op
  have hb := byte0_eq_or op
  by_cases hsmall : L ≤ 125
  · have henc : sendDataHeader op L = [(0x80 + op.toNat) % 256, L % 256] := by
      unfold sendDataHeader
      rw [if_neg (by omega), if_neg (by omega)]
    have hdec := decode_short op.toNat L ht hsmall
    rw [henc] at *
    have hLm : L % 256 = L := Nat.mod_eq_of_lt (by omega)
    refine ⟨by simp [hb], by simp [hLm]; omega, by simp [if_pos hsmall], ?_, ?_, ?_, hdec⟩
    · intro _; simp [hb, hLm]
    · intro h _; omega
    · intro h; omega
  · by_cases hmid : L ≤ 65535
    · have henc : sendDataHeader op L = (0x80 + op.toNat) % 256 :: 0x7E :: writeBe16 L := by
        unfold sendDataHeader
        rw [if_pos (by omega)]
      have hdec := decode_mid op.toNat L ht (by omega) hmid
      rw [henc] at *
      refine ⟨by simp [hb], by simp [writeBe16], ?_, ?_, ?_, ?_, hdec⟩
      · simp [writeBe16, if_neg hsmall, if_pos hmid]
      · intro h; omega
      · intro _ _
        simp only [writeBe16, hb, List.cons.injEq, eq_self_iff_true, true_and,
          and_true]
        omega
      · intro h; omega
    · have henc : sendDataHeader op L = (0x80 + op.toNat) % 256 :: 0x7F :: writeBe64 L := by
        unfold sendDataHeader
        rw [if_neg (by omega), if_pos (by omega)]
      have hdec := decode_long op.toNat L ht (by omega) hL
      rw [henc] at *
      refine ⟨by simp [hb], by simp [writeBe64], ?_, ?_, ?_, ?_, hdec⟩
      · simp [writeBe64, if_neg hsmall, if_neg hmid]
      · intro h; omega
      · intro h _; omega
      · intro _
        simp only [writeBe64, hb, List.cons.injEq, eq_self_iff_true, true_and,
          and_true]
        omega

/-- Witness for `send_data_header_correct`: instantiated at opcode TEXT and
the boundary length 65536 (10-byte header case). -/
theorem send_data_header_correct_witness :
    (sendDataHeader Opcode.TEXT 65536).head? = some (0x80 ||| Opcode.TEXT.toNat) ∧
    decodeFrameHeader (sendDataHeader Opcode.TEXT 65536) =
      some (Opcode.TEXT.toNat, 65536) := by
  have h := send_data_header_correct Opcode.TEXT 65536 (by decide)
  exact ⟨h.1, h.2.2.2.2.2.2⟩

/-! ## Per-connection state machine

`server_connection` holds `_done` (the completion flag), the two bounded
queues `_input_buffer` / `_output_buffer`, and the buffered transport.  The
observable effects of `read_one`, `close`, `send_data` and the two `do_until`
loops are modelled as state transformers on the record below.  Each element
of `sent` is one scattered write to `_write_buf` (header bytes followed by
the payload bytes). -/

structure ConnState where
  done : Bool
  inputQ : List (List Nat)
  outputQ : List (List Nat)
  inputClosed : Bool
  outputClosed : Bool
  sent : List (List Nat)
  outputShutdown : Bool
  deriving DecidableEq, Repr

/-- Connection state at construction: completion flag false, queues empty and
open, nothing written. -/
def initConnState : ConnState :=
  { done := false, inputQ := [], outputQ := [], inputClosed := false,
    outputClosed := false, sent := [], outputShutdown := false }

/-- `server_connection::send_data` (lines 262-286): build the header, append
the payload, write the scattered message and flush. -/
def send_data (op : Opcode) (payload : List Nat) (s : ConnState) : ConnState :=
  { s with sent := s.sent ++ [sendDataHeader op payload.length ++ payload] }

/-- `server_connection::close` (lines 247-260): if `send_close`, first send a
CLOSE frame with an empty payload (`temporary_buffer<char>(0)`); then, in the
`finally` blocks, set `_done = true`, close both queues, and shut down the
transport's write direction. -/
def close (sendClose : Bool) (s : ConnState) : ConnState :=
  let s1 := if sendClose then send_data .CLOSE [] s else s
  { s1 with
    done := true
    inputClosed := true
    outputClosed := true
    outputShutdown := true }

/-- Outcome of one `_read_buf.consume(_websocket_parser)` call, as exposed by
the incoming-frame-parser collaborator: a valid frame (4-bit wire opcode and
payload), logical end-of-stream, or a decode failure (neither valid nor eof).
-/
inductive FrameEvent where
  | valid (opcode : Nat) (payload : List Nat)
  | eofReached
  | corrupt
  deriving DecidableEq, Repr

/-- `server_connection::read_one` (lines 194-226).  Note that in the source
the `default:` label of the `switch` does nothing, so for a valid frame whose
opcode is none of the six named ones, control falls out of the
`if (is_valid())` block and reaches the trailing `return close(true);`
(line 224). -/
def read_one (ev : FrameEvent) (s : ConnState) : ConnState :=
  match ev with
  | .valid op payload =>
    if op = Opcode.CONTINUATION.toNat ∨ op = Opcode.TEXT.toNat ∨
        op = Opcode.BINARY.toNat then
      { s with inputQ := s.inputQ ++ [payload] }
    else if op = Opcode.CLOSE.toNat then
      close true s
    else if op = Opcode.PING.toNat then
      s
    else if op = Opcode.PONG.toNat then
      s
    else
      close true s
  | .eofReached => close false s
  | .corrupt => close true s

/-- The ingestion loop `do_until([this] {return _done;}, [this] {return
read_one();})` (line 236), driven by the sequence of parse outcomes the wire
would produce: the condition is tested before each body run, and once `_done`
is observed the remaining events are never consumed. -/
def readFrameLoop (evs : List FrameEvent) (s : ConnState) : ConnState :=
  match evs with
  | [] => s
  | ev :: rest => if s.done then s else readFrameLoop rest (read_one ev s)

/-- Body of `server_connection::response_loop` (lines 289-294): pop one
payload from the output queue and send it with opcode BINARY.  An empty
queue means `pop_eventually` suspends: no state change. -/
def response_one (s : ConnState) : ConnState :=
  match s.outputQ with
  | [] => s
  | payload :: rest => send_data .BINARY payload { s with outputQ := rest }

/-- The emission loop `do_until([this] {return _done;}, ...)` (lines
288-294), with fuel bounding the number of iterations. -/
def response_loop (fuel : Nat) (s : ConnState) : ConnState :=
  match fuel with
  | 0 => s
  | n + 1 => if s.done then s else response_loop n (response_one s)

lemma readFrameLoop_of_done (evs : List FrameEvent) (s : ConnState)
    (h : s.done = true) : readFrameLoop evs s = s := by
  cases evs <;> simp [readFrameLoop, h]

lemma response_loop_of_done (fuel : Nat) (s : ConnState)
    (h : s.done = true) : response_loop fuel s = s := by
  cases fuel <;> simp [response_loop, h]

lemma close_done (b : Bool) (s : ConnState) : (close b s).done = true := by
  cases b <;> rfl

lemma read_one_done_mono (ev : FrameEvent) (s : ConnState)
    (h : s.done = true) : (read_one ev s).done = true := by
  cases ev with
  | valid op payload =>
    simp only [read_one]
    split
    · exact h
    split
    · exact close_done _ _
    split
    · exact h
    split
    · exact h
    · exact close_done _ _
  | eofReached => exact close_done _ _
  | corrupt => exact close_done _ _

/-- C5: a valid CLOSE frame from the peer makes `read_one` send back exactly
one zero-length CLOSE frame (whose two header bytes decode to opcode CLOSE,
length 0), after which the completion flag is set, both queues are closed and
the write direction is shut down; and once the completion flag is set the
ingestion loop consumes no further inbound frames and changes nothing. -/
theorem close_frame_echo (s : ConnState) (payload : List Nat)
    (evs : List FrameEvent) :
    (read_one (.valid Opcode.CLOSE.toNat payload) s).sent =
      s.sent ++ [[0x88, 0x00]] ∧
    decodeFrameHeader [0x88, 0x00] = some (Opcode.CLOSE.toNat, 0) ∧
    (read_one (.valid Opcode.CLOSE.toNat payload) s).done = true ∧
    (read_one (.valid Opcode.CLOSE.toNat payload) s).inputClosed = true ∧
    (read_one (.valid Opcode.CLOSE.toNat payload) s).outputClosed = true ∧
    (read_one (.valid Opcode.CLOSE.toNat payload) s).outputShutdown = true ∧
    readFrameLoop evs (read_one (.valid Opcode.CLOSE.toNat payload) s) =
      read_one (.valid Opcode.CLOSE.toNat payload) s := by
  have h1 : read_one (.valid Opcode.CLOSE.toNat payload) s = close true s := by
    simp only [read_one]
    rw [if_neg (by decide)]
    simp only [if_true]
  rw [h1]
  refine ⟨?_, by decide, ?_, ?_, ?_, ?_,
    readFrameLoop_of_done evs _ (close_done _ _)⟩
  · show (send_data .CLOSE [] s).sent = s.sent ++ [[0x88, 0x00]]
    rfl
  · rfl
  · rfl
  · rfl
  · rfl

/-- C6: when the incoming-frame parser reports logical end-of-stream, the
ingestion step closes with `send_close = false` — the completion flag is
set and teardown happens but nothing is written to the transport; when it
reports a decode failure, the step closes with `send_close = true` — a
zero-length CLOSE frame is written. -/
theorem eof_and_decode_failure_close (s : ConnState) :
    read_one .eofReached s = close false s ∧
    (read_one .eofReached s).sent = s.sent ∧
    (read_one .eofReached s).done = true ∧
    (read_one .eofReached s).outputShutdown = true ∧
    read_one .corrupt s = close true s ∧
    (read_one .corrupt s).sent = s.sent ++ [[0x88, 0x00]] ∧
    (read_one .corrupt s).done = true := by
  exact ⟨rfl, rfl, rfl, rfl, rfl, rfl, rfl⟩

/-- C2 (counter-evidence): the code's behaviour on a valid frame with the
reserved opcode 0x3 — the `switch` default does nothing, so control falls
through to `close(true)`: a CLOSE frame is sent and the completion flag is
set, rather than the frame being ignored. -/
theorem invalid_opcode_falls_through_to_close :
    read_one (.valid 3 []) initConnState =
      { done := true, inputQ := [], outputQ := [], inputClosed := true,
        outputClosed := true, sent := [[0x88, 0x00]],
        outputShutdown := true } ∧
    (read_one (.valid 3 []) initConnState).done = true ∧
    initConnState.done = false ∧
    (read_one (.valid 3 []) initConnState).sent = [[0x88, 0x00]] ∧
    initConnState.sent = [] := by
  refine ⟨by decide, by decide, by decide, by decide, by decide⟩

/-! ## Handshake (`server_connection::read_http_upgrade_request`) -/

/-- Outcome of `_read_buf.consume(_http_parser)`, as exposed by the HTTP
request parser collaborator (spec: `parse(byte stream) -> request | failure |
eof`).  A parsed request is abstracted to its header lookup function;
`request::get_header` returns the empty string for an absent header. -/
inductive HttpParseResult where
  | eofReached
  | failed
  | parsed (getHeader : String → String)

/-- The distinct `websocket::exception`s thrown by
`read_http_upgrade_request` (lines 146, 151, 157), as tagged error values. -/
inductive HandshakeError where
  | incorrectUpgradeRequest
  | upgradeHeaderMissing
  | subprotocolNotSupported
  deriving DecidableEq, Repr

/-- Successful return of `read_http_upgrade_request`: either parser EOF
(`_done = true`, no handler bound) or an accepted upgrade with the negotiated
subprotocol recorded. -/
inductive HandshakeOutcome where
  | eofDone
  | accepted (subprotocol : String)

/-- `server_connection::read_http_upgrade_request` (lines 136-161): parser
EOF sets the completion flag and returns; a failed parse throws; an `Upgrade`
header differing from "websocket" (case-sensitively, absence giving the
empty string) throws; an unregistered `Sec-WebSocket-Protocol` value (the
empty string being a legitimate key) throws; otherwise the handler and
subprotocol are bound.  `registered` is `server::is_handler_registered`
(membership in the `_handlers` map, lines 300-302). -/
def read_http_upgrade_request (p : HttpParseResult)
    (registered : String → Bool) : Except HandshakeError HandshakeOutcome :=
  match p with
  | .eofReached => .ok .eofDone
  | .failed => .error .incorrectUpgradeRequest
  | .parsed gh =>
    if gh "Upgrade" ≠ "websocket" then
      .error .upgradeHeaderMissing
    else if ¬ registered (gh "Sec-WebSocket-Protocol") then
      .error .subprotocolNotSupported
    else
      .ok (.accepted (gh "Sec-WebSocket-Protocol"))

/-! ## Completion-flag monotonicity (C9) -/

/-- The operations of a connection, as one step type: the handshake (with
its parser outcome and handler registry), one ingestion step, a run of the
ingestion loop, the close procedure, one emission step, and a run of the
emission loop. -/
inductive ConnOp where
  | handshake (p : HttpParseResult) (registered : String → Bool)
  | readOne (ev : FrameEvent)
  | readFrames (evs : List FrameEvent)
  | closeConn (sendClose : Bool)
  | respondOne
  | respondLoop (fuel : Nat)

/-- Effect of each operation on the connection state.  The handshake touches
the completion flag only on parser EOF (line 141, `_done = true`); errors
propagate leaving the flag unchanged. -/
def applyConnOp : ConnOp → ConnState → ConnState
  | .handshake p reg, s =>
    match read_http_upgrade_request p reg with
    | .ok .eofDone => { s with done := true }
    | _ => s
  | .readOne ev, s => read_one ev s
  | .readFrames evs, s => readFrameLoop evs s
  | .closeConn b, s => close b s
  | .respondOne, s => response_one s
  | .respondLoop fuel, s => response_loop fuel s

lemma response_one_done (s : ConnState) :
    (response_one s).done = s.done := by
  unfold response_one
  cases s.outputQ <;> rfl

/-- C9: the completion flag starts false and is monotone — every connection
operation (handshake, ingestion, emission, close) either leaves it unchanged
or sets it; once true, no operation resets it. -/
theorem done_flag_monotone :
    initConnState.done = false ∧
    ∀ (op : ConnOp) (s : ConnState), s.done = true →
      (applyConnOp op s).done = true := by
  refine ⟨rfl, ?_⟩
  intro op s h
  cases op with
  | handshake p reg =>
    simp only [applyConnOp]
    rcases read_http_upgrade_request p reg with e | o
    · exact h
    · cases o
      · exact rfl
      · exact h
  | readOne ev => exact read_one_done_mono ev s h
  | readFrames evs => rw [applyConnOp, readFrameLoop_of_done evs s h]; exact h
  | closeConn b => exact close_done b s
  | respondOne => rw [applyConnOp, response_one_done]; exact h
  | respondLoop fuel =>
    rw [applyConnOp, response_loop_of_done fuel s h]; exact h

/-- Witness for `done_flag_monotone`: a state with the flag already set is
unchanged by a run of the ingestion loop. -/
theorem done_flag_monotone_witness :
    (⟨true, [], [], false, false, [], false⟩ : ConnState).done = true ∧
    (applyConnOp (.readFrames [.eofReached, .corrupt])
      ⟨true, [], [], false, false, [], false⟩).done = true :=
  ⟨rfl, done_flag_monotone.2 (.readFrames [.eofReached, .corrupt]) _ rfl⟩

/-- C4: the handshake errors exactly when the request is malformed (parse
failure), the `Upgrade` header as received differs from "websocket", or no
handler is registered for the exact `Sec-WebSocket-Protocol` string; each
with its specific error; whereas EOF before a request is a non-error return
that only sets the completion flag, binding no handler. -/
theorem handshake_error_conditions (gh : String → String)
    (reg : String → Bool) :
    read_http_upgrade_request .eofReached reg = .ok .eofDone ∧
    (∀ s : ConnState,
      (applyConnOp (.handshake .eofReached reg) s).done = true) ∧
    read_http_upgrade_request .failed reg =
      .error .incorrectUpgradeRequest ∧
    ((∃ e, read_http_upgrade_request (.parsed gh) reg = .error e) ↔
      gh "Upgrade" ≠ "websocket" ∨
        reg (gh "Sec-WebSocket-Protocol") = false) ∧
    (gh "Upgrade" ≠ "websocket" →
      read_http_upgrade_request (.parsed gh) reg =
        .error .upgradeHeaderMissing) ∧
    (gh "Upgrade" = "websocket" →
      reg (gh "Sec-WebSocket-Protocol") = false →
      read_http_upgrade_request (.parsed gh) reg =
        .error .subprotocolNotSupported) ∧
    (gh "Upgrade" = "websocket" →
      reg (gh "Sec-WebSocket-Protocol") = true →
      read_http_upgrade_request (.parsed gh) reg =
        .ok (.accepted (gh "Sec-WebSocket-Protocol"))) := by
  refine ⟨rfl, fun s => rfl, rfl, ?_, ?_, ?_, ?_⟩
  · constructor
    · rintro ⟨e, he⟩
      by_contra hcon
      push_neg at hcon
      obtain ⟨h1, h2⟩ := hcon
      simp only [read_http_upgrade_request, h1, ne_eq, not_true_eq_false,
        if_false, Bool.not_eq_false] at he
      rw [if_neg (by simp [h2])] at he
      exact Except.noConfusion he
    · intro h
      rcases h with h | h
      · exact ⟨.upgradeHeaderMissing, by simp [read_http_upgrade_request, h]⟩
      · by_cases hu : gh "Upgrade" = "websocket"
        · exact ⟨.subprotocolNotSupported,
            by simp [read_http_upgrade_request, hu, h]⟩
        · exact ⟨.upgradeHeaderMissing,
            by simp [read_http_upgrade_request, hu]⟩
  · intro h1
    simp [read_http_upgrade_request, h1]
  · intro h1 h2
    simp [read_http_upgrade_request, h1, h2]
  · intro h1 h2
    simp [read_http_upgrade_request, h1, h2]

/-- Witness for `handshake_error_conditions`: a request with
`Upgrade: websocket` and subprotocol "chat", once against a registry knowing
"chat" (accepted) and once against an empty registry (rejected). -/
theorem handshake_error_conditions_witness :
    read_http_upgrade_request
        (.parsed fun h => if h = "Upgrade" then "websocket" else "chat")
        (fun p => p = "chat") =
      .ok (.accepted "chat") ∧
    read_http_upgrade_request
        (.parsed fun h => if h = "Upgrade" then "websocket" else "chat")
        (fun _ => false) =
      .error .subprotocolNotSupported := by
  constructor
  · exact (handshake_error_conditions
      (fun h => if h = "Upgrade" then "websocket" else "chat")
      (fun p => p = "chat")).2.2.2.2.2.2 (by decide) (by decide)
  · exact (handshake_error_conditions
      (fun h => if h = "Upgrade" then "websocket" else "chat")
      (fun _ => false)).2.2.2.2.2.1 (by decide) (by decide)

/-! ## Accept-key pipeline (`sha1_base64`, C3)

`sha1_base64` (lines 115-134) calls the gnutls primitives
`gnutls_hash_fast(GNUTLS_DIG_SHA1, …)` and `gnutls_base64_encode2`, which are
external to this repository; they are modelled from the spec ("compute SHA-1
over the UTF-8 bytes of the concatenation; base64-encode the 20-byte
digest"), i.e. by the standard SHA-1 (FIPS 180) and RFC 4648 base64
algorithms. -/

/-- `magic_key_suffix` (line 35). -/
def magic_key_suffix : String := "258EAFA5-E914-47DA-95CA-C5AB0DC85B11"

/-- The bytes of an ASCII string. -/
def strBytes (s : String) : List Nat := s.toList.map Char.toNat

/-- 32-bit left rotation. -/
def rotl32 (n x : Nat) : Nat :=
  ((x <<< n) ||| (x >>> (32 - n))) % 4294967296

/-- Modelled from the spec: SHA-1 initial state (FIPS 180). -/
def sha1H0 : List Nat :=
  [0x67452301, 0xEFCDAB89, 0x98BADCFE, 0x10325476, 0xC3D2E1F0]

/-- Zero bytes needed so that message + 0x80 + zeros is 56 mod 64 long. -/
def sha1PadZeros (len : Nat) : Nat := (119 - len % 64) % 64

/-- Modelled from the spec: SHA-1 message padding — append 0x80, zeros, and
the 64-bit big-endian bit length. -/
def sha1Pad (msg : List Nat) : List Nat :=
  msg ++ [0x80] ++ List.replicate (sha1PadZeros msg.length) 0 ++
    writeBe64 (8 * msg.length)

/-- Group bytes into 32-bit big-endian words. -/
def toWords32 (l : List Nat) : List Nat :=
  match l with
  | a :: b :: c :: d :: rest =>
    (a * 16777216 + b * 65536 + c * 256 + d) :: toWords32 rest
  | _ => []

/-- Extend the 16 block words to the 80-word SHA-1 message schedule, one word
per unit of fuel. -/
def sha1Extend (fuel : Nat) (ws : List Nat) : List Nat :=
  match fuel with
  | 0 => ws
  | n + 1 =>
    let t := ws.length
    let w := rotl32 1 ((ws.getD (t - 3) 0) ^^^ (ws.getD (t - 8) 0) ^^^
                       (ws.getD (t - 14) 0) ^^^ (ws.getD (t - 16) 0))
    sha1Extend n (ws ++ [w])

/-- SHA-1 round function by round index. -/
def sha1f (t b c d : Nat) : Nat :=
  if t < 20 then (b &&& c) ||| ((b ^^^ 4294967295) &&& d)
  else if t < 40 then b ^^^ c ^^^ d
  else if t < 60 then (b &&& c) ||| (b &&& d) ||| (c &&& d)
  else b ^^^ c ^^^ d

/-- SHA-1 round constant by round index. -/
def sha1k (t : Nat) : Nat :=
  if t < 20 then 0x5A827999
  else if t < 40 then 0x6ED9EBA1
  else if t < 60 then 0x8F1BBCDC
  else 0xCA62C1D6

/-- The 80 SHA-1 compression rounds on the five-word working state. -/
def sha1Compress (fuel t : Nat) (st : Nat × Nat × Nat × Nat × Nat)
    (ws : List Nat) : Nat × Nat × Nat × Nat × Nat :=
  match fuel with
  | 0 => st
  | n + 1 =>
    match st with
    | (a, b, c, d, e) =>
      let temp := (rotl32 5 a + sha1f t b c d + e + sha1k t + ws.getD t 0) %
        4294967296
      sha1Compress n (t + 1) (temp, a, rotl32 30 b, c, d) ws

/-- Process one 64-byte block: compress and add into the chaining state. -/
def sha1Block (h : List Nat) (block : List Nat) : List Nat :=
  let ws := sha1Extend 64 (toWords32 block)
  match sha1Compress 80 0
      (h.getD 0 0, h.getD 1 0, h.getD 2 0, h.getD 3 0, h.getD 4 0) ws with
  | (a, b, c, d, e) =>
    [(h.getD 0 0 + a) % 4294967296, (h.getD 1 0 + b) % 4294967296,
     (h.getD 2 0 + c) % 4294967296, (h.getD 3 0 + d) % 4294967296,
     (h.getD 4 0 + e) % 4294967296]

/-- Fold `sha1Block` over the 64-byte chunks of the padded message. -/
def sha1Blocks : Nat → List Nat → List Nat → List Nat
  | 0, h, _ => h
  | n + 1, h, data => sha1Blocks n (sha1Block h (data.take 64)) (data.drop 64)

/-- Modelled from the spec: SHA-1 of a byte string, as the 20-byte digest. -/
def sha1 (msg : List Nat) : List Nat :=
  let padded := sha1Pad msg
  let h := sha1Blocks (padded.length / 64) sha1H0 padded
  h.flatMap fun w =>
    [w / 2 ^ 24 % 256, w / 2 ^ 16 % 256, w / 2 ^ 8 % 256, w % 256]

/-- The RFC 4648 base64 alphabet. -/
def b64Chars : List Char :=
  "ABCDEFGHIJKLMNOPQRSTUVWXYZabcdefghijklmnopqrstuvwxyz0123456789+/".toList

/-- Character for one 6-bit group. -/
def b64Char (n : Nat) : Char := b64Chars.getD n '?'

/-- Modelled from the spec: RFC 4648 base64 encoding with `=` padding
(`gnutls_base64_encode2` is external to this repository). -/
def base64Encode (l : List Nat) : List Char :=
  match l with
  | [] => []
  | [b1] => [b64Char (b1 / 4), b64Char (b1 % 4 * 16), '=', '=']
  | [b1, b2] =>
    [b64Char (b1 / 4), b64Char (b1 % 4 * 16 + b2 / 16), b64Char (b2 % 16 * 4),
     '=']
  | b1 :: b2 :: b3 :: rest =>
    b64Char (b1 / 4) :: b64Char (b1 % 4 * 16 + b2 / 16) ::
    b64Char (b2 % 16 * 4 + b3 / 64) :: b64Char (b3 % 64) :: base64Encode rest

/-- `sha1_base64` (lines 115-134): SHA-1 of the source bytes, base64-encoded.
-/
def sha1_base64 (source : String) : String :=
  String.mk (base64Encode (sha1 (strBytes source)))

/-- The accept key as computed in `read_http_upgrade_request` (lines 163-170):
`sha1_base64(sec_key + magic_key_suffix)`. -/
def secWebSocketAccept (key : String) : String :=
  sha1_base64 (key ++ magic_key_suffix)

set_option maxRecDepth 8000 in
/-- C3: for the RFC 6455 sample key `dGhlIHNhbXBsZSBub25jZQ==`, the SHA-1
digest of key + magic GUID is 20 bytes long and its base64 encoding — the
computed `Sec-WebSocket-Accept` — is `s3pPLMBiTxaQ9kYGzzhZRbK+xOo=`. -/
theorem accept_key_rfc6455_vector :
    (sha1 (strBytes ("dGhlIHNhbXBsZSBub25jZQ==" ++ magic_key_suffix))).length
      = 20 ∧
    secWebSocketAccept "dGhlIHNhbXBsZSBub25jZQ==" =
      "s3pPLMBiTxaQ9kYGzzhZRbK+xOo=" := by
  exact ⟨by rfl, by rfl⟩

/-! ## Failure propagation through `process` (C7)

`process` (lines 109-113) runs `when_all_succeed(read_loop(),
response_loop())`, discards the result and **handles** any exception by
logging it at debug level.  `read_loop` (lines 228-241) runs
`when_all_succeed` of the handler invocation — whose exceptions first close
`_read_buf` and are then rethrown — and the ingestion loop, and closes
`_read_buf` in a `finally`.  The completed-future outcomes of the three
concurrent activities are modelled as `Except` values and propagated exactly
as the combinators do. -/

/-- `when_all_succeed` on two completed results: the combined future fails
if either does. -/
def whenAllSucceed {ε : Type} (a b : Except ε Unit) : Except ε Unit :=
  match a with
  | .error e => .error e
  | .ok _ => b

/-- The handler invocation wrapper (lines 231-235): on failure, close
`_read_buf` and rethrow the same exception.  Second component: whether this
wrapper closed the read buffer. -/
def handlerWrapped {ε : Type} (h : Except ε Unit) : Except ε Unit × Bool :=
  match h with
  | .error e => (.error e, true)
  | .ok _ => (.ok (), false)

/-- The post-handshake part of `read_loop` (lines 230-240): combine the
wrapped handler with the ingestion loop, closing `_read_buf` in the
`finally` on every path (second component: read buffer closed). -/
def read_loop_outcome {ε : Type} (handler ingest : Except ε Unit) :
    Except ε Unit × Bool :=
  (whenAllSucceed (handlerWrapped handler).1 ingest, true)

/-- `server_connection::process` (lines 109-113): wait for `read_loop` and
`response_loop`, then `handle_exception` logs any failure and completes
successfully.  Second component: whether a failure was logged. -/
def process {ε : Type} (handler ingest emit : Except ε Unit) :
    Except ε Unit × Bool :=
  match whenAllSucceed (read_loop_outcome handler ingest).1 emit with
  | .error _ => (.ok (), true)
  | .ok _ => (.ok (), false)

/-- C7 (counter-evidence): with a failing handler and succeeding loops,
`process` nevertheless completes successfully (a failure is logged) —
`handle_exception` logs and swallows the failure, so the failure does not
surface in the overall connection-processing result. -/
theorem process_swallows_failure :
    (process (ε := Unit) (.error ()) (.ok ()) (.ok ())).1 = .ok () ∧
    (process (ε := Unit) (.error ()) (.ok ()) (.ok ())).2 = true := by
  exact ⟨rfl, rfl⟩

/-- C7 (amended): the read buffer is closed on every `read_loop` path; a
handler failure closes the read buffer and is rethrown unchanged, failing
`read_loop`; the combined wait succeeds iff handler, ingestion loop and
emission loop all succeed; and `process` itself always completes
successfully, logging a failure exactly when any of the three failed. -/
theorem process_error_propagation {ε : Type} (h i e : Except ε Unit) :
    (read_loop_outcome h i).2 = true ∧
    (∀ err, h = .error err →
      handlerWrapped h = (.error err, true) ∧
      (read_loop_outcome h i).1 = .error err) ∧
    (whenAllSucceed (read_loop_outcome h i).1 e = .ok () ↔
      h = .ok () ∧ i = .ok () ∧ e = .ok ()) ∧
    (process h i e).1 = .ok () ∧
    ((process h i e).2 = true ↔ ¬(h = .ok () ∧ i = .ok () ∧ e = .ok ())) := by
  refine ⟨rfl, ?_, ?_, ?_, ?_⟩
  · rintro err rfl
    exact ⟨rfl, rfl⟩
  · cases h with
    | error eh =>
      simp [read_loop_outcome, handlerWrapped, whenAllSucceed]
    | ok u =>
      cases u
      cases i with
      | error ei => simp [read_loop_outcome, handlerWrapped, whenAllSucceed]
      | ok v =>
        cases v
        cases e with
        | error ee => simp [read_loop_outcome, handlerWrapped, whenAllSucceed]
        | ok w => cases w; simp [read_loop_outcome, handlerWrapped, whenAllSucceed]
  · cases h <;> cases i <;> cases e <;>
      simp [process, read_loop_outcome, handlerWrapped, whenAllSucceed]
  · cases h with
    | error eh =>
      simp [process, read_loop_outcome, handlerWrapped, whenAllSucceed]
    | ok u =>
      cases u
      cases i with
      | error ei => simp [process, read_loop_outcome, handlerWrapped, whenAllSucceed]
      | ok v =>
        cases v
        cases e with
        | error ee => simp [process, read_loop_outcome, handlerWrapped, whenAllSucceed]
        | ok w => cases w; simp [process, read_loop_outcome, handlerWrapped, whenAllSucceed]

/-- Witness for `process_error_propagation`: a failing handler with
succeeding loops — the read buffer is closed, the failure is rethrown, and
`process` completes cleanly having logged it. -/
theorem process_error_propagation_witness :
    (read_loop_outcome (ε := Unit) (.error ()) (.ok ())).1 = .error () ∧
    (process (ε := Unit) (.error ()) (.ok ()) (.ok ())).1 = .ok () := by
  have hthm := process_error_propagation (ε := Unit) (.error ()) (.ok ()) (.ok ())
  exact ⟨(hthm.2.1 () rfl).2, hthm.2.2.2.1⟩

/-! ## Server lifecycle (C8, C10) -/

/-- Modelled from the spec: `listen_options` is declared outside the
excerpted source; the claim only concerns its `reuse_address` field, so the
remaining fields are abstracted to one value of an arbitrary type. -/
structure ListenOptions (ρ : Type) where
  reuse_address : Bool
  rest : ρ
  deriving DecidableEq, Repr

/-- Server state: bound listeners, whether `abort_accept` was issued, the
task gate's closed flag, and the live-connection registry. -/
structure ServerState (α ρ : Type) where
  listeners : List (α × ListenOptions ρ)
  abortedAccepts : Bool
  gateClosed : Bool
  connections : List ConnState

/-- `server::listen(socket_address, listen_options)` (lines 45-48): bind a
new listener and launch its accept loop in the background. -/
def listen {α ρ : Type} (addr : α) (lo : ListenOptions ρ)
    (s : ServerState α ρ) : ServerState α ρ :=
  { s with listeners := s.listeners ++ [(addr, lo)] }

/-- `server::listen(socket_address)` (lines 49-53): default-construct
`listen_options` (`dflt` is the default-constructed value), set
`reuse_address = true`, and delegate to the two-argument overload. -/
def listenSimple {α ρ : Type} (dflt : ListenOptions ρ) (addr : α)
    (s : ServerState α ρ) : ServerState α ρ :=
  listen addr { dflt with reuse_address := true } s

/-- C10: `listen(address)` is `listen(address, options)` with default
options modified so that `reuse_address` is true, whatever the other option
fields' defaults are; the bound listener carries `reuse_address = true`. -/
theorem listen_sets_reuse_address {α ρ : Type} (dflt : ListenOptions ρ)
    (addr : α) (s : ServerState α ρ) :
    listenSimple dflt addr s =
      listen addr { dflt with reuse_address := true } s ∧
    (listenSimple dflt addr s).listeners =
      s.listeners ++ [(addr, { reuse_address := true, rest := dflt.rest })] ∧
    (∀ l ∈ (listenSimple dflt addr s).listeners,
      l ∉ s.listeners → l.2.reuse_address = true) := by
  refine ⟨rfl, rfl, ?_⟩
  intro l hl hnot
  rcases List.mem_append.mp hl with h | h
  · exact absurd h hnot
  · rcases List.mem_singleton.mp h with rfl
    rfl

/-- Witness for `listen_sets_reuse_address`: a concrete address and default
options. -/
theorem listen_sets_reuse_address_witness :
    (listenSimple (ρ := Unit) ⟨false, ()⟩ (0 : Nat)
        ⟨[], false, false, []⟩).listeners =
      [((0 : Nat), ⟨true, ()⟩)] := by
  have hthm := listen_sets_reuse_address (ρ := Unit) ⟨false, ()⟩ (0 : Nat)
    ⟨[], false, false, []⟩
  exact hthm.2.1

/-- Modelled from the spec: `_task_gate.close()` — the seastar `gate`
collaborator is outside the excerpted source.  Per the spec, closing blocks
until every registered task (each accept loop, and each
connection-processing task whose completion destroys and thereby
deregisters its connection) has finished — so when it completes the
connection registry is empty — and gate closure is idempotent and safe, so
it never errors. -/
def gateClose {α ρ : Type} (s : ServerState α ρ) : ServerState α ρ :=
  { s with gateClosed := true, connections := [] }

/-- `server::stop` (lines 85-99): abort pending accepts on every listener,
shut down the input side of every live connection, close the task gate, and
then force-close (`close(true)`, errors ignored) every connection still in
the registry.  Returns the final server state and the list of connections a
close was attempted on. -/
def stop {α ρ : Type} (s : ServerState α ρ) :
    ServerState α ρ × List ConnState :=
  let s1 := { s with abortedAccepts := true }
  let s2 := gateClose s1
  ({ s2 with connections := s2.connections.map (close true) },
   s2.connections)

/-- C8: after a completed `stop()`, the task gate is closed and the
connection registry is empty; a second `stop()` neither errors (the
spec-modelled gate close is idempotent) nor attempts to close any
connection — it attempts the close fan-out on the empty list and leaves the
state exactly as the first `stop()` left it. -/
theorem stop_twice_safe {α ρ : Type} (s : ServerState α ρ) :
    ((stop s).1.gateClosed = true ∧ (stop s).1.connections = []) ∧
    gateClose (stop s).1 = (stop s).1 ∧
    (stop (stop s).1).2 = [] ∧
    (stop (stop s).1).1 = (stop s).1 := by
  exact ⟨⟨rfl, rfl⟩, rfl, rfl, rfl⟩

end Websocket
